import Mathlib

set_option autoImplicit false
set_option linter.unusedVariables false

/-!
Shallow embedding of the pymodular linear algebra module
(pymodular/modules/linalg.py): the automatic solver classifier
auto_determine_solver and the LinSolve transformation node.

Numeric values are embedded as complex numbers with exact rational real and
imaginary parts. Structural detections that numpy performs with a tolerance
are embedded as exact comparisons, which is the idealisation the spec states
(section 4.2: exact equality within tolerance).
-/

/-- A complex scalar value with rational real and imaginary parts, standing in
for a numpy complex (or real, when the imaginary part is zero) scalar. -/
structure CQ where
  re : ℚ
  im : ℚ
deriving DecidableEq, Repr

namespace CQ

def zero : CQ := ⟨0, 0⟩

def add (a b : CQ) : CQ := ⟨a.re + b.re, a.im + b.im⟩

def neg (a : CQ) : CQ := ⟨-a.re, -a.im⟩

def mul (a b : CQ) : CQ := ⟨a.re * b.re - a.im * b.im, a.re * b.im + a.im * b.re⟩

/-- Complex conjugation, as performed by np.conj. -/
def conj (a : CQ) : CQ := ⟨a.re, -a.im⟩

def normSq (a : CQ) : ℚ := a.re * a.re + a.im * a.im

/-- Complex division a / b, total with the rational convention x / 0 = 0. -/
def div (a b : CQ) : CQ :=
  ⟨(a.re * b.re + a.im * b.im) / b.normSq, (a.im * b.re - a.re * b.im) / b.normSq⟩

/-- The real part kept as a scalar with zero imaginary part, as np.real does. -/
def realPart (a : CQ) : CQ := ⟨a.re, 0⟩

instance : Zero CQ := ⟨zero⟩

instance : Add CQ := ⟨add⟩

instance : Neg CQ := ⟨neg⟩

instance : Mul CQ := ⟨mul⟩

end CQ

/-- Finite sum of f 0 + f 1 + ... + f (k-1), used to embed the einsum
contraction over load case columns. -/
def sumRange : ℕ → (ℕ → CQ) → CQ
  | 0, _ => CQ.zero
  | k + 1, f => CQ.add (sumRange k f) (f k)

/-- A numpy or scipy 2-D array value: its shape, its entries (arbitrary outside
the shape), and the two representation flags the python code branches on:
whether the object is a scipy sparse matrix (sps.issparse) and whether its
dtype is complex (np.iscomplexobj, which is dtype based, not value based). -/
structure NPArray2 where
  rows : ℕ
  cols : ℕ
  entry : ℕ → ℕ → CQ
  sparse : Bool
  complexobj : Bool

/-- A numpy 1-D array value with the complex dtype flag. -/
structure NPVec where
  len : ℕ
  entry : ℕ → CQ
  complexobj : Bool

/-- An array of real dtype holds no imaginary parts; numpy guarantees this by
construction, so embedded arrays are assumed to satisfy it. -/
def NPArray2.wellformed (A : NPArray2) : Prop :=
  A.complexobj = false → ∀ i < A.rows, ∀ j < A.cols, (A.entry i j).im = 0

/-- A vector of real dtype holds no imaginary parts. -/
def NPVec.wellformed (v : NPVec) : Prop :=
  v.complexobj = false → ∀ i < v.len, (v.entry i).im = 0

/-- The vector of real parts with real dtype, as np.real produces. -/
def NPVec.realPart (v : NPVec) : NPVec :=
  ⟨v.len, fun i => (v.entry i).realPart, false⟩

instance (A : NPArray2) : Decidable A.wellformed :=
  inferInstanceAs (Decidable
    (A.complexobj = false → ∀ i < A.rows, ∀ j < A.cols, (A.entry i j).im = 0))

instance (v : NPVec) : Decidable v.wellformed :=
  inferInstanceAs (Decidable
    (v.complexobj = false → ∀ i < v.len, (v.entry i).im = 0))

/-- Modelled from the spec: matrix_is_diagonal is imported into linalg.py from
the pymodular package, whose source is not part of this repository. Spec
section 4.2 describes the structural detections as exact equality within
tolerance; with exact rational arithmetic this is exact equality, so a matrix
is diagonal when every off diagonal entry is zero. -/
def matrix_is_diagonal (A : NPArray2) : Bool :=
  decide (∀ i < A.rows, ∀ j < A.cols, i ≠ j → A.entry i j = CQ.zero)

/-- Modelled from the spec: matrix_is_symmetric is imported into linalg.py from
the pymodular package, whose source is not part of this repository. It detects
equality of the matrix with its transpose, exactly under rational arithmetic. -/
def matrix_is_symmetric (A : NPArray2) : Bool :=
  decide (∀ i < A.rows, ∀ j < A.rows, A.entry i j = A.entry j i)

/-- Modelled from the spec: matrix_is_hermitian is imported into linalg.py from
the pymodular package, whose source is not part of this repository. It detects
equality of the matrix with its conjugate transpose, exactly under rational
arithmetic. -/
def matrix_is_hermitian (A : NPArray2) : Bool :=
  decide (∀ i < A.rows, ∀ j < A.rows, A.entry i j = (A.entry j i).conj)

/-- Embeds np.allclose(A, np.tril(A)) from line 50 of linalg.py: the matrix is
lower triangular when every entry strictly above the diagonal is zero. -/
def tril_check (A : NPArray2) : Bool :=
  decide (∀ i < A.rows, ∀ j < A.cols, i < j → A.entry i j = CQ.zero)

/-- Embeds np.allclose(A, np.triu(A)) from line 55 of linalg.py: the matrix is
upper triangular when every entry strictly below the diagonal is zero. -/
def triu_check (A : NPArray2) : Bool :=
  decide (∀ i < A.rows, ∀ j < A.cols, j < i → A.entry i j = CQ.zero)

/-- Embeds np.alltrue(A.diagonal() > 0) from lines 91 and 102 of linalg.py.
The ordered comparison acts on the real part; wherever the code reaches this
test the matrix is hermitian, whose diagonal entries are real. -/
def diag_all_pos (A : NPArray2) : Bool :=
  decide (∀ i < A.rows, 0 < (A.entry i i).re)

/-- Embeds np.alltrue(A.diagonal() < 0) from lines 91 and 102 of linalg.py. -/
def diag_all_neg (A : NPArray2) : Bool :=
  decide (∀ i < A.rows, (A.entry i i).re < 0)

/-- The closed set of solver objects that auto_determine_solver can return,
one constructor per solver class constructed in linalg.py, carrying the
constructor arguments the python code passes. -/
inductive Solver where
  | SolverDenseQR
  | SolverDiagonal
  | SolverDenseCholesky
  | SolverDenseLDL (hermitian : Bool)
  | SolverDenseLU
  | SolverSparsePardiso (symmetric hermitian : Bool) (positive_definite : Option Bool)
  | SolverSparseCholeskyScikit
  | SolverSparseCholeskyCVXOPT
  | SolverSparseLU
deriving DecidableEq, Repr

/-- The only failure auto_determine_solver can raise: the assertion at line 77
of linalg.py, which the spec error taxonomy calls InconsistentOverride. -/
inductive ClassifierError where
  | InconsistentOverride
deriving DecidableEq, Repr

/-- Which optional sparse backends are importable in the running environment:
the defined class attributes of SolverSparsePardiso, SolverSparseCholeskyScikit
and SolverSparseCholeskyCVXOPT, passed explicitly to the embedding. -/
structure SolverAvailability where
  pardiso : Bool
  choleskyScikit : Bool
  choleskyCVXOPT : Bool
deriving DecidableEq, Repr

/-- Embeds lines 63 to 81 of linalg.py: resolution of the hermitian and
symmetric flags from the overrides and the detections. For a complex dtype
matrix each flag defaults to its own detection; for a real dtype matrix a
single detection fills both, one override fills the other, and two conflicting
overrides trip the assertion at line 77. Returns the pair of the resolved
hermitian flag and the resolved symmetric flag. -/
def resolveSymHerm (A : NPArray2) (ishermitian issymmetric : Option Bool) :
    Except ClassifierError (Bool × Bool) :=
  if A.complexobj then
    .ok (ishermitian.getD (matrix_is_hermitian A), issymmetric.getD (matrix_is_symmetric A))
  else
    match ishermitian, issymmetric with
    | none, none => .ok (matrix_is_symmetric A, matrix_is_symmetric A)
    | some h, some s =>
        if h = s then .ok (h, s) else .error .InconsistentOverride
    | some h, none => .ok (h, h)
    | none, some s => .ok (s, s)

/-- Embeds lines 83 to 97 of linalg.py: selection for a square non diagonal
sparse matrix, given the resolved hermitian and symmetric flags. -/
def sparseBranch (avail : SolverAvailability) (A : NPArray2)
    (ishermitian issymmetric : Bool) (ispositivedefinite : Option Bool) : Solver :=
  if avail.pardiso then
    .SolverSparsePardiso issymmetric ishermitian ispositivedefinite
  else if ishermitian && (diag_all_pos A || diag_all_neg A) then
    if avail.choleskyScikit then .SolverSparseCholeskyScikit
    else if avail.choleskyCVXOPT then .SolverSparseCholeskyCVXOPT
    else .SolverSparseLU
  else .SolverSparseLU

/-- Embeds lines 99 to 110 of linalg.py: selection for a square non diagonal
dense matrix, given the resolved hermitian and symmetric flags. -/
def denseBranch (A : NPArray2) (ishermitian issymmetric : Bool) : Solver :=
  if ishermitian then
    if diag_all_pos A || diag_all_neg A then .SolverDenseCholesky
    else .SolverDenseLDL ishermitian
  else if issymmetric then .SolverDenseLDL ishermitian
  else .SolverDenseLU

/-- Embeds auto_determine_solver, lines 19 to 110 of linalg.py. The
availability of the optional sparse backends is an explicit argument. The
triangular detections of lines 47 to 61 only construct warning message objects
(warnings.WarningMessage, which is never raised nor emitted) and never change
the returned solver; the unused let bindings mirror them. -/
def auto_determine_solver (avail : SolverAvailability) (A : NPArray2)
    (isdiagonal islowertriangular isuppertriangular ishermitian issymmetric
      ispositivedefinite : Option Bool) : Except ClassifierError Solver :=
  let issparse := A.sparse
  if A.rows ≠ A.cols then
    .ok .SolverDenseQR
  else if isdiagonal.getD (matrix_is_diagonal A) then
    .ok .SolverDiagonal
  else
    let _islowertriangular := islowertriangular.getD
      (if issparse then false else tril_check A)
    let _isuppertriangular := isuppertriangular.getD
      (if issparse then false else triu_check A)
    match resolveSymHerm A ishermitian issymmetric with
    | .error e => .error e
    | .ok (h, s) =>
        if issparse then .ok (sparseBranch avail A h s ispositivedefinite)
        else .ok (denseBranch A h s)

/-- Modelled from the spec: DyadCarrier is imported into linalg.py from the
pymodular package, whose source is not part of this repository. The spec
(section 4.5) uses it as the sparse carrier of the outer product matrix
sensitivity, decomposed into real and imaginary components on the fragile
path; accordingly it holds paired lists of column and row vectors and denotes
the sum of their outer (dyadic) products. -/
structure DyadCarrier where
  uvecs : List (ℕ → CQ)
  vvecs : List (ℕ → CQ)

/-- The matrix a DyadCarrier denotes: the sum over the paired vectors of the
outer products u v transposed. -/
def DyadCarrier.toFun (d : DyadCarrier) : ℕ → ℕ → CQ :=
  fun i j => (d.uvecs.zip d.vvecs).foldr (fun p acc => CQ.add (CQ.mul (p.1 i) (p.2 j)) acc) CQ.zero

/-- The matrix sensitivity returned by LinSolve, which is a DyadCarrier on the
sparse path and a dense 2-D array on the dense path. -/
inductive MatSens where
  | dense (m : ℕ → ℕ → CQ)
  | dyad (d : DyadCarrier)

/-- The scalar at position i j of the returned matrix sensitivity, reading a
DyadCarrier through the matrix it denotes. -/
def MatSens.toMat (d : MatSens) (i j : ℕ) : CQ :=
  match d with
  | .dense f => f i j
  | .dyad c => c.toFun i j

/-- Embeds lines 151 to 171 of linalg.py, the LinSolve sensitivity for a one
dimensional solution (the branch where u.ndim is 1), as a function of the
detected sparsity and dtype of the matrix, the adjoint solution lam already
returned by the wrapped solver, the stored forward solution u and the right
hand side signal rhs. Returns the matrix sensitivity and the rhs sensitivity. -/
def LinSolve_sensitivity_vec (issparse iscomplex : Bool) (lam u rhs : NPVec) :
    MatSens × NPVec :=
  let dmat : MatSens :=
    if issparse then
      if !iscomplex && (u.complexobj || lam.complexobj) then
        .dyad ⟨[fun i => CQ.neg (lam.entry i).realPart,
                fun i => CQ.neg ⟨(lam.entry i).im, 0⟩],
               [fun j => (u.entry j).realPart,
                fun j => ⟨(u.entry j).im, 0⟩]⟩
      else
        .dyad ⟨[fun i => CQ.neg (lam.entry i)], [fun j => u.entry j]⟩
    else
      let outer := fun i j => CQ.mul (CQ.neg (lam.entry i)) (u.entry j).conj
      if iscomplex then .dense outer
      else .dense fun i j => (outer i j).realPart
  let db : NPVec := if rhs.complexobj then lam else lam.realPart
  (dmat, db)

/-- Embeds the multi column dense branch of LinSolve sensitivity, line 163 of
linalg.py: the einsum contraction iB,jB to ij of minus lam with the conjugate
of u over the k load case columns, followed by np.real when the matrix dtype
is real (line 167). -/
def LinSolve_sensitivity_multi (iscomplex : Bool) (k : ℕ) (lam u : ℕ → ℕ → CQ) :
    ℕ → ℕ → CQ :=
  let dmat := fun i j => sumRange k (fun b => CQ.mul (CQ.neg (lam i b)) ((u j b).conj))
  if iscomplex then dmat else fun i j => (dmat i j).realPart

/-- Modelled from the spec: the diagonal solver class SolverDiagonal is
imported into linalg.py and its source is not part of this repository. Spec
sections 4.2 and 8 state the diagonal solve is the elementwise division of the
right hand side by the matrix diagonal; the result dtype follows the numpy
promotion of the operand dtypes. -/
def diagSolve (A : NPArray2) (b : NPVec) : NPVec :=
  ⟨b.len, fun i => (b.entry i).div (A.entry i i), A.complexobj || b.complexobj⟩

/-- Modelled from the spec: the adjoint solve (spec section 4.3) solves the
transposed system; a diagonal matrix equals its transpose, so the adjoint
solve of the diagonal solver is the same elementwise division. -/
def diagAdjoint (A : NPArray2) (b : NPVec) : NPVec :=
  diagSolve A b

/-- The configuration stored by LinSolve at lines 117 to 126 of linalg.py: the
linear dependence tolerance and the optional hermitian and symmetric flags
(the custom solver argument is left at its default None throughout). -/
structure LinSolveConfig where
  dep_tol : ℚ
  hermitian : Option Bool
  symmetric : Option Bool

/-- Embeds lines 130 to 135 of linalg.py: inside the LinSolve response, for a
real dtype matrix a supplied symmetric flag overwrites the hermitian flag, and
a still unset hermitian flag is filled by detection. -/
def LinSolve_resolve_ishermitian (cfg : LinSolveConfig) (mat : NPArray2) : Bool :=
  let iscomplex := mat.complexobj
  let h := if !iscomplex && cfg.symmetric.isSome then cfg.symmetric else cfg.hermitian
  h.getD (matrix_is_hermitian mat)

/-- Embeds line 139 of linalg.py: the LinSolve response calls
auto_determine_solver passing only the resolved hermitian flag, every other
override left at None. -/
def LinSolve_response_solver (avail : SolverAvailability) (cfg : LinSolveConfig)
    (mat : NPArray2) : Except ClassifierError Solver :=
  auto_determine_solver avail mat none none none
    (some (LinSolve_resolve_ishermitian cfg mat)) none none

/-- Modelled from the spec: LDAWrapper is imported into linalg.py from the
pymodular package, whose source is not part of this repository. Spec section
4.4 describes it as wrapping a solver with a linear dependence detection whose
relative tolerance is configurable with default 1e-5. -/
structure LDAWrapper where
  wrapped : Solver
  tol : ℚ
deriving DecidableEq, Repr

/-- The default linear dependence tolerance of the wrapper, 1e-5. -/
def LDAWrapper.defaultTol : ℚ := 1 / 100000

/-- Embeds line 141 of linalg.py: the call LDAWrapper(self.solver) passes only
the solver and no tolerance, so the wrapper keeps its default tolerance. -/
def LDAWrapper.wrap (s : Solver) : LDAWrapper :=
  ⟨s, LDAWrapper.defaultTol⟩

/-- Embeds lines 138 to 141 of linalg.py: the solver determined automatically
in the response is wrapped in an LDAWrapper constructed without a tolerance
argument. -/
def LinSolve_response_wrapper (avail : SolverAvailability) (cfg : LinSolveConfig)
    (mat : NPArray2) : Except ClassifierError LDAWrapper :=
  (LinSolve_response_solver avail cfg mat).map LDAWrapper.wrap

/-- The hermitian flag resolveSymHerm yields when neither override is given:
the hermitian detection for a complex dtype matrix, the symmetry detection for
a real dtype matrix (lines 67 to 75 of linalg.py). -/
def resolvedHerm (A : NPArray2) : Bool :=
  if A.complexobj then matrix_is_hermitian A else matrix_is_symmetric A

/-- The symmetric flag resolveSymHerm yields when neither override is given:
the symmetry detection in both dtype cases. -/
def resolvedSym (A : NPArray2) : Bool :=
  matrix_is_symmetric A

/-- No optional sparse backend importable, the baseline environment. -/
def noAvail : SolverAvailability := ⟨false, false, false⟩

/-- The diagonal matrix diag(2, 4) of the end to end scenario, dense real. -/
def exDiagMat : NPArray2 :=
  ⟨2, 2, fun i j =>
    if i = 0 && j = 0 then ⟨2, 0⟩
    else if i = 1 && j = 1 then ⟨4, 0⟩
    else CQ.zero, false, false⟩

/-- The right hand side vector of the end to end scenario. -/
def exRhs : NPVec :=
  ⟨2, fun i => if i = 0 then ⟨4, 0⟩ else if i = 1 then ⟨8, 0⟩ else CQ.zero, false⟩

/-- The seed output gradient of the end to end scenario. -/
def exDfdv : NPVec :=
  ⟨2, fun i => if i = 0 then ⟨1, 0⟩ else CQ.zero, false⟩

/-- The forward solution of the end to end scenario. -/
def exU : NPVec := diagSolve exDiagMat exRhs

/-- The adjoint solution of the end to end scenario. -/
def exLam : NPVec := diagAdjoint exDiagMat exDfdv

/-- The sensitivity pair of the end to end scenario, on the dense real path. -/
def exSens : MatSens × NPVec :=
  LinSolve_sensitivity_vec false false exLam exU exRhs

/-- A dense real lower triangular non diagonal matrix. -/
def exLowerTri : NPArray2 :=
  ⟨2, 2, fun i j =>
    if i = 0 && j = 0 then ⟨1, 0⟩
    else if i = 1 && j = 0 then ⟨2, 0⟩
    else if i = 1 && j = 1 then ⟨3, 0⟩
    else CQ.zero, false, false⟩

/-- A dense real symmetric positive definite non diagonal matrix. -/
def exSPD : NPArray2 :=
  ⟨2, 2, fun i j =>
    if i = j then ⟨2, 0⟩
    else if i < 2 && j < 2 then ⟨1, 0⟩
    else CQ.zero, false, false⟩

/-- The same symmetric positive definite matrix in sparse representation. -/
def exSparseSPD : NPArray2 :=
  ⟨2, 2, exSPD.entry, true, false⟩

/-- A dense real symmetric indefinite permutation matrix, not diagonal. -/
def exSym01 : NPArray2 :=
  ⟨2, 2, fun i j =>
    if i = 0 && j = 1 then ⟨1, 0⟩
    else if i = 1 && j = 0 then ⟨1, 0⟩
    else CQ.zero, false, false⟩

/-- The one by one real identity, a diagonal matrix. -/
def exDiag1 : NPArray2 :=
  ⟨1, 1, fun i j => if i = 0 && j = 0 then ⟨1, 0⟩ else CQ.zero, false, false⟩

/-- A sparse non square zero matrix. -/
def exSparseNonSq : NPArray2 :=
  ⟨1, 2, fun _ _ => CQ.zero, true, false⟩

/-- A dense non square zero matrix. -/
def exDenseNonSq : NPArray2 :=
  ⟨1, 2, fun _ _ => CQ.zero, false, false⟩

/-- A one by one sparse complex matrix holding the imaginary unit. -/
def exCMat : NPArray2 :=
  ⟨1, 1, fun i j => if i = 0 && j = 0 then ⟨0, 1⟩ else CQ.zero, true, true⟩

/-- A complex right hand side for the sparse complex scenario. -/
def exCRhs : NPVec :=
  ⟨1, fun i => if i = 0 then ⟨1, 0⟩ else CQ.zero, true⟩

/-- The seed output gradient for the sparse complex scenario. -/
def exCDfdv : NPVec :=
  ⟨1, fun i => if i = 0 then ⟨1, 0⟩ else CQ.zero, true⟩

/-- The forward solution of the sparse complex scenario, minus the imaginary
unit. -/
def exCU : NPVec := diagSolve exCMat exCRhs

/-- The adjoint solution of the sparse complex scenario. -/
def exCLam : NPVec := diagAdjoint exCMat exCDfdv

/-- A complex dtype adjoint vector exercising the decomposed sparse path. -/
def exWLam : NPVec :=
  ⟨1, fun i => if i = 0 then ⟨1, 2⟩ else CQ.zero, true⟩

/-- A complex dtype solution vector exercising the decomposed sparse path. -/
def exWU : NPVec :=
  ⟨1, fun i => if i = 0 then ⟨3, 5⟩ else CQ.zero, true⟩

/-- A real dtype right hand side for the decomposed sparse path. -/
def exWRhs : NPVec :=
  ⟨1, fun i => if i = 0 then ⟨1, 0⟩ else CQ.zero, false⟩

instance {ε α : Type} [DecidableEq ε] [DecidableEq α] : DecidableEq (Except ε α) := fun a b =>
  match a, b with
  | .error e, .error f => decidable_of_iff (e = f) (by simp)
  | .ok x, .ok y => decidable_of_iff (x = y) (by simp)
  | .error _, .ok _ => .isFalse (by simp)
  | .ok _, .error _ => .isFalse (by simp)

/-- Adding the zero scalar on the right is the identity. -/
theorem CQ.add_zero_right (a : CQ) : CQ.add a CQ.zero = a := by
  cases a
  simp [CQ.add, CQ.zero]

/-- Taking real parts commutes with addition of scalars. -/
theorem CQ.realPart_add (a b : CQ) :
    (CQ.add a b).realPart = CQ.add a.realPart b.realPart := by
  simp [CQ.add, CQ.realPart]

/-- Conjugation fixes a scalar with zero imaginary part. -/
theorem CQ.conj_of_im_zero (a : CQ) (h : a.im = 0) : a.conj = a := by
  cases a
  simp_all [CQ.conj]

/-- Taking real parts commutes with the finite sums used by the einsum
embedding. -/
theorem sumRange_realPart (k : ℕ) (f : ℕ → CQ) :
    (sumRange k f).realPart = sumRange k (fun b => (f b).realPart) := by
  induction k with
  | zero => rfl
  | succ k ih => simp [sumRange, CQ.realPart_add, ih]

/-- On a real dtype matrix the hermitian detection and the symmetry detection
agree, because every entry is real. -/
theorem hermitian_eq_symmetric_of_real (A : NPArray2) (hwf : A.wellformed)
    (hre : A.complexobj = false) (hsq : A.rows = A.cols) :
    matrix_is_hermitian A = matrix_is_symmetric A := by
  unfold matrix_is_hermitian matrix_is_symmetric
  rw [decide_eq_decide]
  constructor
  · intro hall i hi j hj
    have h1 := hall i hi j hj
    rwa [CQ.conj_of_im_zero _ (hwf hre j hj i (hsq ▸ hi))] at h1
  · intro hall i hi j hj
    rw [CQ.conj_of_im_zero _ (hwf hre j hj i (hsq ▸ hi))]
    exact hall i hi j hj

/-- With no overrides the flag resolution succeeds and yields the detected
values. -/
theorem resolveSymHerm_none_none (A : NPArray2) :
    resolveSymHerm A none none = .ok (resolvedHerm A, resolvedSym A) := by
  unfold resolveSymHerm resolvedHerm resolvedSym
  cases h : A.complexobj <;> simp [h]

/-- With only the hermitian override the flag resolution succeeds: a complex
dtype matrix keeps its symmetry detection, a real dtype matrix copies the
override into the symmetric flag. -/
theorem resolveSymHerm_some_none (A : NPArray2) (h : Bool) :
    resolveSymHerm A (some h) none =
      .ok (h, if A.complexobj then matrix_is_symmetric A else h) := by
  unfold resolveSymHerm
  cases hA : A.complexobj <;> simp [hA]

/-- For a square non diagonal matrix the classifier is the flag resolution
followed by the sparse or dense branch; the triangular detections do not enter
the result. -/
theorem auto_determine_solver_nondiag (avail : SolverAvailability) (A : NPArray2)
    (ilt iut ih isym ipd : Option Bool)
    (hsq : A.rows = A.cols) (hdiag : matrix_is_diagonal A = false) :
    auto_determine_solver avail A none ilt iut ih isym ipd =
      (resolveSymHerm A ih isym).map (fun p =>
        if A.sparse then sparseBranch avail A p.1 p.2 ipd
        else denseBranch A p.1 p.2) := by
  unfold auto_determine_solver
  simp only [hsq, ne_eq, not_true_eq_false, if_false, Option.getD_none, hdiag,
    Bool.false_eq_true]
  cases hres : resolveSymHerm A ih isym with
  | error e => simp [Except.map]
  | ok p => cases p with
    | mk h s =>
        simp only [Except.map]
        cases A.sparse <;> simp

/-- C1: with the diagonal matrix diag(2, 4) and right hand side (4, 8) the
classifier picks the diagonal solver, the forward solve returns x = (2, 2);
seeding the backward pass with output gradient (1, 0) the adjoint is
lambda = (1/2, 0), the matrix sensitivity is minus lambda outer x, namely
((-1, -1), (0, 0)), and the rhs sensitivity is (1/2, 0). -/
theorem C1_end_to_end_diagonal_scenario :
    auto_determine_solver noAvail exDiagMat none none none none none none
        = .ok .SolverDiagonal
    ∧ exU.entry 0 = ⟨2, 0⟩ ∧ exU.entry 1 = ⟨2, 0⟩
    ∧ exLam.entry 0 = ⟨1/2, 0⟩ ∧ exLam.entry 1 = CQ.zero
    ∧ exSens.1.toMat 0 0 = ⟨-1, 0⟩ ∧ exSens.1.toMat 0 1 = ⟨-1, 0⟩
    ∧ exSens.1.toMat 1 0 = CQ.zero ∧ exSens.1.toMat 1 1 = CQ.zero
    ∧ exSens.2.entry 0 = ⟨1/2, 0⟩ ∧ exSens.2.entry 1 = CQ.zero := by
  refine ⟨by decide, ?_, ?_, ?_, ?_, ?_, ?_, ?_, ?_, ?_, ?_⟩ <;>
    norm_num [exU, exLam, exSens, diagSolve, diagAdjoint, exDiagMat, exRhs, exDfdv,
      LinSolve_sensitivity_vec, MatSens.toMat, DyadCarrier.toFun, CQ.div, CQ.normSq,
      CQ.mul, CQ.neg, CQ.conj, CQ.realPart, CQ.zero, CQ.add, NPVec.realPart]

/-- C9: every square matrix detected as diagonal is given the diagonal solver,
whatever the triangular, hermitian, symmetric or definiteness overrides say,
because the diagonal test precedes the symmetry classification. -/
theorem C9_diagonal_solver_selected (avail : SolverAvailability) (A : NPArray2)
    (ilt iut ih isym ipd : Option Bool)
    (hsq : A.rows = A.cols) (hdiag : matrix_is_diagonal A = true) :
    auto_determine_solver avail A none ilt iut ih isym ipd = .ok .SolverDiagonal := by
  unfold auto_determine_solver
  simp [hsq, hdiag]

/-- Witness for C9: the symmetric positive definite diagonal matrix diag(2, 4)
receives the diagonal solver, not Cholesky, even with the hermitian and
positive definiteness overrides set. -/
theorem C9_diagonal_solver_selected_witness :
    auto_determine_solver noAvail exDiagMat none none none (some true) none
        (some true) = .ok .SolverDiagonal
    ∧ (Solver.SolverDiagonal ≠ Solver.SolverDenseCholesky) := by
  exact ⟨C9_diagonal_solver_selected noAvail exDiagMat none none (some true) none
    (some true) (by decide) (by decide), by decide⟩

/-- C3 counterexample: a dense square non diagonal lower triangular matrix is
given the general dense LU solver; no triangular solver is selected (none
exists in the set of solvers the classifier can construct). -/
theorem C3_counterexample_triangular_matrix_gets_LU :
    tril_check exLowerTri = true
    ∧ matrix_is_diagonal exLowerTri = false
    ∧ exLowerTri.sparse = false
    ∧ auto_determine_solver noAvail exLowerTri none none none none none none
        = .ok .SolverDenseLU := by
  decide

/-- C3 amended: for a dense square non diagonal triangular matrix the
triangular detection only constructs a warning message; the returned solver is
the one of the symmetry classification, and the triangular overrides have no
effect on the result. -/
theorem C3_triangular_not_selected_amended (avail : SolverAvailability)
    (A : NPArray2) (ilt iut ilt2 iut2 : Option Bool)
    (hsp : A.sparse = false) (hsq : A.rows = A.cols)
    (hdiag : matrix_is_diagonal A = false)
    (htri : tril_check A = true ∨ triu_check A = true) :
    auto_determine_solver avail A none ilt iut none none none
        = .ok (denseBranch A (resolvedHerm A) (resolvedSym A))
    ∧ auto_determine_solver avail A none ilt2 iut2 none none none
        = auto_determine_solver avail A none ilt iut none none none := by
  constructor
  · rw [auto_determine_solver_nondiag avail A ilt iut none none none hsq hdiag,
      resolveSymHerm_none_none]
    simp [Except.map, hsp]
  · rw [auto_determine_solver_nondiag avail A ilt iut none none none hsq hdiag,
      auto_determine_solver_nondiag avail A ilt2 iut2 none none none hsq hdiag]

/-- Witness for the amended C3: the lower triangular example falls through to
the symmetry classification, which yields the dense LU solver. -/
theorem C3_triangular_not_selected_amended_witness :
    auto_determine_solver noAvail exLowerTri none (some true) none none none none
        = .ok (denseBranch exLowerTri (resolvedHerm exLowerTri) (resolvedSym exLowerTri))
    ∧ denseBranch exLowerTri (resolvedHerm exLowerTri) (resolvedSym exLowerTri)
        = .SolverDenseLU := by
  exact ⟨(C3_triangular_not_selected_amended noAvail exLowerTri (some true) none
    none none (by decide) (by decide) (by decide) (Or.inl (by decide))).1, by decide⟩

/-- C4: a dense square non diagonal, non triangular matrix is classified by
symmetry: hermitian with uniformly positive or uniformly negative diagonal
gives Cholesky, hermitian or symmetric otherwise gives LDL, anything else
gives LU. -/
theorem C4_dense_symmetry_classification (avail : SolverAvailability)
    (A : NPArray2) (hwf : A.wellformed)
    (hsp : A.sparse = false) (hsq : A.rows = A.cols)
    (hdiag : matrix_is_diagonal A = false)
    (hlt : tril_check A = false) (hut : triu_check A = false) :
    auto_determine_solver avail A none none none none none none =
      .ok (if matrix_is_hermitian A then
             (if diag_all_pos A || diag_all_neg A then .SolverDenseCholesky
              else .SolverDenseLDL true)
           else if matrix_is_symmetric A then .SolverDenseLDL false
           else .SolverDenseLU) := by
  rw [auto_determine_solver_nondiag avail A none none none none none hsq hdiag,
    resolveSymHerm_none_none]
  simp only [Except.map, hsp, Bool.false_eq_true, if_false, Except.ok.injEq]
  unfold denseBranch resolvedHerm resolvedSym
  cases hc : A.complexobj with
  | true =>
      simp only [if_true]
      cases hh : matrix_is_hermitian A <;> cases hs : matrix_is_symmetric A <;>
        simp [hh, hs]
  | false =>
      have he := hermitian_eq_symmetric_of_real A hwf hc hsq
      rw [he]
      simp only [Bool.false_eq_true, if_false]
      cases hs : matrix_is_symmetric A <;> simp [hs]

/-- Witness for C4: a dense symmetric positive definite matrix is classified
as dense Cholesky. -/
theorem C4_dense_symmetry_classification_witness :
    auto_determine_solver noAvail exSPD none none none none none none
        = .ok .SolverDenseCholesky := by
  have h := C4_dense_symmetry_classification noAvail exSPD (by decide) (by decide)
    (by decide) (by decide) (by decide) (by decide)
  rw [h]
  decide

/-- C5: a sparse square non diagonal matrix goes to Pardiso whenever it is
available, regardless of symmetry; otherwise a hermitian matrix with uniformly
positive or uniformly negative diagonal goes to a sparse Cholesky backend when
one is available, and everything else goes to sparse LU. -/
theorem C5_sparse_classification (avail : SolverAvailability)
    (A : NPArray2) (hwf : A.wellformed)
    (hsp : A.sparse = true) (hsq : A.rows = A.cols)
    (hdiag : matrix_is_diagonal A = false) :
    auto_determine_solver avail A none none none none none none =
      .ok (if avail.pardiso then
             .SolverSparsePardiso (matrix_is_symmetric A) (matrix_is_hermitian A) none
           else if matrix_is_hermitian A && (diag_all_pos A || diag_all_neg A) then
             (if avail.choleskyScikit then .SolverSparseCholeskyScikit
              else if avail.choleskyCVXOPT then .SolverSparseCholeskyCVXOPT
              else .SolverSparseLU)
           else .SolverSparseLU) := by
  rw [auto_determine_solver_nondiag avail A none none none none none hsq hdiag,
    resolveSymHerm_none_none]
  simp only [Except.map, hsp, if_true, Except.ok.injEq]
  unfold sparseBranch resolvedHerm resolvedSym
  cases hc : A.complexobj with
  | true => simp
  | false =>
      have he := hermitian_eq_symmetric_of_real A hwf hc hsq
      rw [he]
      simp

/-- Witness for C5: the sparse symmetric positive definite example, with only
the scikit Cholesky backend available, is classified as sparse Cholesky. -/
theorem C5_sparse_classification_witness :
    auto_determine_solver ⟨false, true, false⟩ exSparseSPD none none none none
        none none = .ok .SolverSparseCholeskyScikit := by
  have h := C5_sparse_classification ⟨false, true, false⟩ exSparseSPD (by decide)
    (by decide) (by decide) (by decide)
  rw [h]
  decide

/-- C6 counterexample: a sparse non square matrix does not fail; the
classifier returns the dense QR solver for it as well, so no failure with
UnsupportedMatrixShape occurs anywhere. -/
theorem C6_counterexample_sparse_nonsquare_no_failure :
    exSparseNonSq.sparse = true
    ∧ exSparseNonSq.rows ≠ exSparseNonSq.cols
    ∧ auto_determine_solver noAvail exSparseNonSq none none none none none none
        = .ok .SolverDenseQR := by
  decide

/-- C6 amended: every non square matrix, dense or sparse, is given the dense
QR least squares solver, whatever the overrides say; for sparse input only a
sparse efficiency warning object is constructed and never raised. -/
theorem C6_nonsquare_always_dense_QR_amended (avail : SolverAvailability)
    (A : NPArray2) (d ilt iut ih isym ipd : Option Bool)
    (h : A.rows ≠ A.cols) :
    auto_determine_solver avail A d ilt iut ih isym ipd = .ok .SolverDenseQR := by
  unfold auto_determine_solver
  simp [h]

/-- Witness for the amended C6: the dense non square example receives the
dense QR solver. -/
theorem C6_nonsquare_always_dense_QR_amended_witness :
    auto_determine_solver noAvail exDenseNonSq none none none none none none
        = .ok .SolverDenseQR :=
  C6_nonsquare_always_dense_QR_amended noAvail exDenseNonSq none none none none
    none none (by decide)

/-- C7 counterexample: a real valued square diagonal matrix with conflicting
symmetric and hermitian overrides does not fail: the diagonal check returns
the diagonal solver before the consistency assertion is reached. -/
theorem C7_counterexample_diagonal_escapes_check :
    exDiag1.complexobj = false
    ∧ exDiag1.rows = exDiag1.cols
    ∧ auto_determine_solver noAvail exDiag1 none none none (some true)
        (some false) none = .ok .SolverDiagonal := by
  decide

/-- C7 amended: for a real valued square non diagonal matrix, conflicting
symmetric and hermitian overrides fail with the inconsistency assertion; when
the overrides agree, or only one is supplied, no failure occurs and the
supplied value is used for both the hermitian and the symmetric flag. -/
theorem C7_override_consistency_amended (avail : SolverAvailability)
    (A : NPArray2) (hre : A.complexobj = false) (hsq : A.rows = A.cols)
    (hdiag : matrix_is_diagonal A = false) :
    (∀ b : Bool, auto_determine_solver avail A none none none (some b)
        (some (!b)) none = .error .InconsistentOverride)
    ∧ (∀ b : Bool, resolveSymHerm A (some b) (some b) = .ok (b, b)
        ∧ auto_determine_solver avail A none none none (some b) (some b) none
            = .ok (if A.sparse then sparseBranch avail A b b none
                   else denseBranch A b b))
    ∧ (∀ b : Bool, resolveSymHerm A (some b) none = .ok (b, b)
        ∧ resolveSymHerm A none (some b) = .ok (b, b)
        ∧ auto_determine_solver avail A none none none (some b) none none
            = .ok (if A.sparse then sparseBranch avail A b b none
                   else denseBranch A b b)
        ∧ auto_determine_solver avail A none none none none (some b) none
            = .ok (if A.sparse then sparseBranch avail A b b none
                   else denseBranch A b b)) := by
  have hboth : ∀ b : Bool, resolveSymHerm A (some b) (some b) = .ok (b, b) := by
    intro b
    unfold resolveSymHerm
    simp [hre]
  have hleft : ∀ b : Bool, resolveSymHerm A (some b) none = .ok (b, b) := by
    intro b
    unfold resolveSymHerm
    simp [hre]
  have hright : ∀ b : Bool, resolveSymHerm A none (some b) = .ok (b, b) := by
    intro b
    unfold resolveSymHerm
    simp [hre]
  have hconf : ∀ b : Bool, resolveSymHerm A (some b) (some (!b))
      = .error .InconsistentOverride := by
    intro b
    unfold resolveSymHerm
    cases b <;> simp [hre]
  refine ⟨?_, ?_, ?_⟩
  · intro b
    rw [auto_determine_solver_nondiag avail A none none (some b) (some (!b)) none
      hsq hdiag, hconf]
    rfl
  · intro b
    refine ⟨hboth b, ?_⟩
    rw [auto_determine_solver_nondiag avail A none none (some b) (some b) none
      hsq hdiag, hboth]
    rfl
  · intro b
    refine ⟨hleft b, hright b, ?_, ?_⟩
    · rw [auto_determine_solver_nondiag avail A none none (some b) none none
        hsq hdiag, hleft]
      rfl
    · rw [auto_determine_solver_nondiag avail A none none none (some b) none
        hsq hdiag, hright]
      rfl

/-- Witness for the amended C7: on the symmetric permutation example the
conflicting overrides fail with the inconsistency assertion. -/
theorem C7_override_consistency_amended_witness :
    auto_determine_solver noAvail exSym01 none none none (some true)
        (some false) none = .error .InconsistentOverride :=
  (C7_override_consistency_amended noAvail exSym01 (by decide) (by decide)
    (by decide)).1 true

/-- C2 counterexample: for a sparse complex matrix the stored matrix
sensitivity is minus lambda outer u without conjugation; on the one by one
system with matrix i, solution u = -i and adjoint lambda = -i the code stores
the scalar 1 while the claimed formula minus lambda times conj u gives -1. -/
theorem C2_counterexample_sparse_complex_no_conjugate :
    exCMat.sparse = true ∧ exCMat.complexobj = true
    ∧ exCU.entry 0 = ⟨0, -1⟩ ∧ exCLam.entry 0 = ⟨0, -1⟩
    ∧ (LinSolve_sensitivity_vec true true exCLam exCU exCRhs).1.toMat 0 0 = ⟨1, 0⟩
    ∧ CQ.mul (CQ.neg (exCLam.entry 0)) ((exCU.entry 0).conj) = ⟨-1, 0⟩
    ∧ (⟨1, 0⟩ : CQ) ≠ (⟨-1, 0⟩ : CQ) := by
  refine ⟨rfl, rfl, ?_, ?_, ?_, ?_, by decide⟩ <;>
    norm_num [exCU, exCLam, diagSolve, diagAdjoint, exCMat, exCRhs, exCDfdv,
      LinSolve_sensitivity_vec, MatSens.toMat, DyadCarrier.toFun, CQ.div,
      CQ.normSq, CQ.mul, CQ.neg, CQ.conj, CQ.realPart, CQ.zero, CQ.add]

/-- With two real scalars the product needs no conjugation and is its own real
part. -/
theorem CQ.mul_conj_real (x y : CQ) (hx : x.im = 0) (hy : y.im = 0) :
    CQ.mul x y = (CQ.mul x y.conj).realPart := by
  cases x with
  | mk a b =>
    cases y with
    | mk c d =>
      simp only at hx hy
      subst hx
      subst hy
      simp [CQ.mul, CQ.conj, CQ.realPart]

/-- The two real dyads built from the real and imaginary components sum to the
real part of the conjugated outer product term. -/
theorem CQ.dyad_decompose (x y : CQ) :
    CQ.add (CQ.mul (CQ.neg x.realPart) y.realPart)
        (CQ.mul (CQ.neg ⟨x.im, 0⟩) ⟨y.im, 0⟩)
      = (CQ.mul (CQ.neg x) y.conj).realPart := by
  cases x with
  | mk a b =>
    cases y with
    | mk c d =>
      simp only [CQ.mul, CQ.neg, CQ.conj, CQ.realPart, CQ.add, CQ.mk.injEq]
      constructor <;> ring

/-- C2 amended: the backward pass of LinSolve returns, for the matrix, the
outer product of minus the adjoint lambda with the conjugate of the solution u
on the dense path (real part taken when the matrix dtype is real), the real
part of that same outer product on the sparse path whenever the matrix dtype
is real, and minus lambda outer u without conjugation on the sparse path with
complex matrix dtype; for the right hand side it returns lambda, with the real
part taken when the rhs dtype is real; on the dense multi column path the
matrix sensitivity is the sum of the per column contributions. -/
theorem C2_sensitivity_formula_amended :
    (∀ (iscomplex : Bool) (lam u rhs : NPVec) (i j : ℕ),
        (LinSolve_sensitivity_vec false iscomplex lam u rhs).1.toMat i j =
          (if iscomplex then CQ.mul (CQ.neg (lam.entry i)) (u.entry j).conj
           else (CQ.mul (CQ.neg (lam.entry i)) (u.entry j).conj).realPart))
    ∧ (∀ (lam u rhs : NPVec) (i j : ℕ), lam.wellformed → u.wellformed →
        i < lam.len → j < u.len →
        (LinSolve_sensitivity_vec true false lam u rhs).1.toMat i j =
          (CQ.mul (CQ.neg (lam.entry i)) (u.entry j).conj).realPart)
    ∧ (∀ (lam u rhs : NPVec) (i j : ℕ),
        (LinSolve_sensitivity_vec true true lam u rhs).1.toMat i j =
          CQ.mul (CQ.neg (lam.entry i)) (u.entry j))
    ∧ (∀ (issparse iscomplex : Bool) (lam u rhs : NPVec),
        (LinSolve_sensitivity_vec issparse iscomplex lam u rhs).2 =
          (if rhs.complexobj then lam else lam.realPart))
    ∧ (∀ (iscomplex : Bool) (k : ℕ) (lam u : ℕ → ℕ → CQ) (i j : ℕ),
        LinSolve_sensitivity_multi iscomplex k lam u i j =
          sumRange k (fun b =>
            if iscomplex then CQ.mul (CQ.neg (lam i b)) ((u j b).conj)
            else (CQ.mul (CQ.neg (lam i b)) ((u j b).conj)).realPart)) := by
  refine ⟨?_, ?_, ?_, ?_, ?_⟩
  · intro iscomplex lam u rhs i j
    cases iscomplex <;>
      simp [LinSolve_sensitivity_vec, MatSens.toMat]
  · intro lam u rhs i j hlam hu hi hj
    by_cases hb : (u.complexobj || lam.complexobj) = true
    · simp only [LinSolve_sensitivity_vec, MatSens.toMat, DyadCarrier.toFun,
        Bool.not_false, Bool.true_and, hb, if_true, ite_true, List.zipWith,
        List.foldr]
      rw [CQ.add_zero_right]
      exact CQ.dyad_decompose _ _
    · have hor : (u.complexobj || lam.complexobj) = false :=
        Bool.eq_false_iff.mpr hb
      have hun : u.complexobj = false := (Bool.or_eq_false_iff.mp hor).1
      have hln : lam.complexobj = false := (Bool.or_eq_false_iff.mp hor).2
      have himl : (lam.entry i).im = 0 := hlam hln i hi
      have himu : (u.entry j).im = 0 := hu hun j hj
      simp only [LinSolve_sensitivity_vec, MatSens.toMat, DyadCarrier.toFun,
        Bool.not_false, Bool.true_and, hor, Bool.false_eq_true, if_false,
        ite_false, if_true, ite_true, List.zipWith, List.foldr]
      rw [CQ.add_zero_right]
      exact CQ.mul_conj_real _ _ (by simp [CQ.neg, himl]) himu
  · intro lam u rhs i j
    simp only [LinSolve_sensitivity_vec, MatSens.toMat, DyadCarrier.toFun,
      Bool.not_true, Bool.false_and, Bool.false_eq_true, if_false, ite_false,
      if_true, ite_true, List.zipWith, List.foldr]
    try rw [CQ.add_zero_right]
  · intro issparse iscomplex lam u rhs
    cases issparse <;> cases iscomplex <;>
      simp [LinSolve_sensitivity_vec]
  · intro iscomplex k lam u i j
    cases iscomplex with
    | true => simp [LinSolve_sensitivity_multi]
    | false =>
        simp only [LinSolve_sensitivity_multi, Bool.false_eq_true, if_false]
        rw [sumRange_realPart]

/-- Witness for the amended C2: on the decomposed sparse path with a real
matrix dtype and complex valued adjoint and solution, the stored dyad equals
the real part of minus lambda times the conjugate of u. -/
theorem C2_sensitivity_formula_amended_witness :
    (LinSolve_sensitivity_vec true false exWLam exWU exWRhs).1.toMat 0 0
        = ⟨-13, 0⟩ := by
  have h := C2_sensitivity_formula_amended.2.1 exWLam exWU exWRhs 0 0
    (by decide) (by decide) (by decide) (by decide)
  rw [h]
  norm_num [exWLam, exWU, CQ.mul, CQ.neg, CQ.conj, CQ.realPart]

/-- C8: the dep_tol argument stored by LinSolve is never forwarded to the
caching wrapper: constructed with dep_tol 1/100, the wrapper around the
selected solver still carries the default tolerance 1/100000. -/
theorem C8_dep_tol_not_forwarded :
    LinSolve_response_wrapper noAvail ⟨1/100, none, none⟩ exDiagMat
        = .ok ⟨.SolverDiagonal, LDAWrapper.defaultTol⟩
    ∧ LDAWrapper.defaultTol ≠ (1/100 : ℚ) := by
  constructor
  · rfl
  · norm_num [LDAWrapper.defaultTol]

/-- C10: in the LinSolve response, for a real dtype matrix a supplied
symmetric flag silently overwrites the hermitian flag, a conflicting explicit
hermitian flag included, and the subsequent solver determination never fails;
for a complex dtype matrix a supplied symmetric flag has no effect on the
hermitian flag. -/
theorem C10_symmetric_overwrites_hermitian :
    (∀ (mat : NPArray2) (t : ℚ) (s h : Bool), mat.complexobj = false →
        LinSolve_resolve_ishermitian ⟨t, some h, some s⟩ mat = s)
    ∧ (∀ (avail : SolverAvailability) (cfg : LinSolveConfig) (mat : NPArray2),
        ∃ r, LinSolve_response_solver avail cfg mat = .ok r)
    ∧ (∀ (mat : NPArray2) (t : ℚ) (ho : Option Bool) (s : Bool),
        mat.complexobj = true →
        LinSolve_resolve_ishermitian ⟨t, ho, some s⟩ mat
          = LinSolve_resolve_ishermitian ⟨t, ho, none⟩ mat) := by
  refine ⟨?_, ?_, ?_⟩
  · intro mat t s h hre
    simp [LinSolve_resolve_ishermitian, hre]
  · intro avail cfg mat
    unfold LinSolve_response_solver
    by_cases hsq : mat.rows = mat.cols
    · by_cases hd : matrix_is_diagonal mat = true
      · exact ⟨.SolverDiagonal, by unfold auto_determine_solver; simp [hsq, hd]⟩
      · have hd2 : matrix_is_diagonal mat = false := Bool.eq_false_iff.mpr hd
        rw [auto_determine_solver_nondiag avail mat none none _ none none hsq hd2,
          resolveSymHerm_some_none]
        exact ⟨_, rfl⟩
    · exact ⟨.SolverDenseQR, by unfold auto_determine_solver; simp [hsq]⟩
  · intro mat t ho s hc
    simp [LinSolve_resolve_ishermitian, hc]

/-- Witness for C10: on the real symmetric permutation example a supplied
symmetric flag true overrides a conflicting hermitian flag false. -/
theorem C10_symmetric_overwrites_hermitian_witness :
    LinSolve_resolve_ishermitian ⟨1, some false, some true⟩ exSym01 = true :=
  (C10_symmetric_overwrites_hermitian).1 exSym01 1 true false (by decide)
